import Mathlib

/-!
Verification of the motion-command execution core of the stretch_ros driver
(`stretch_core`): the arm-joint consolidation (`merge_arm_joints`), the two
goal-execution paths of `JointTrajectoryAction` (`execute_cb` for
position/navigation mode and `execute_trajectory` for manipulation mode), and
the lock discipline of `StretchBodyNode`.

Numeric joint values are modelled as rationals (`ℚ`); the Python source uses
floats, whose rounding is outside the scope of this embedding.  External
collaborators (the `stretch_body` hardware interface, the rclpy action server,
the command groups defined in `command_groups.py`, and the per-joint
interpolators of `trajectory_components.py`) are modelled as abstract
environment parameters; every observable interaction with them is recorded in
an explicit event trace.
-/

/-- `trajectory_msgs/JointTrajectoryPoint`: one waypoint.  `positions` is
aligned with the trajectory's `joint_names`; `velocities` and `accelerations`
may be shorter (a value is "supplied" for joint index `i` iff `i` is in
range), exactly as the Python source tests `index < len(point.velocities)`. -/
structure JointTrajectoryPoint where
  time_from_start : ℚ
  positions : List ℚ
  velocities : List ℚ
  accelerations : List ℚ
deriving DecidableEq, Repr, Inhabited

/-- `trajectory_msgs/JointTrajectory`: ordered joint names plus waypoints. -/
structure JointTrajectory where
  joint_names : List String
  points : List JointTrajectoryPoint
deriving DecidableEq, Repr, Inhabited

/-- The `FollowJointTrajectory` action goal.  The message type has a
`trajectory` field but NO `joint_names` attribute of its own; the fields of
the real message that the source never reads (tolerances) are omitted. -/
structure Goal where
  trajectory : JointTrajectory
deriving DecidableEq, Repr, Inhabited

/-- Errors raised by the trajectory code: `invalidJoints` embeds
`InvalidJointException` (result code INVALID_JOINTS), `invalidGoal` embeds
`InvalidGoalException` (result code INVALID_GOAL), and `indexError` stands for
a Python `IndexError` escaping to the generic exception handler. -/
inductive TrajErr where
  | invalidJoints (msg : String)
  | invalidGoal (msg : String)
  | indexError
deriving DecidableEq, Repr

/-- Whether the first list is a prefix of the second (on characters). -/
def charsPrefix : List Char → List Char → Bool
  | [], _ => true
  | _ :: _, [] => false
  | a :: as, b :: bs => a == b && charsPrefix as bs

/-- Whether `pat` occurs as a contiguous sublist. -/
def charsContain (pat : List Char) : List Char → Bool
  | [] => charsPrefix pat []
  | c :: rest => charsPrefix pat (c :: rest) || charsContain pat rest

/-- Python's substring test `pat in s`: `pat` occurs contiguously in `s`. -/
def strContains (s pat : String) : Bool :=
  charsContain pat.data s.data

/-- The arm-segment detection used by `merge_arm_joints` (source line 36):
`'joint_arm_l' in name` — a substring test, not an equality test against the
four physical segment names. -/
def isArmJoint (name : String) : Bool :=
  strContains name "joint_arm_l"

/-- The four physical telescoping-segment joint names. -/
def armSegmentNames : List String :=
  ["joint_arm_l0", "joint_arm_l1", "joint_arm_l2", "joint_arm_l3"]

/-- Result codes of `control_msgs/FollowJointTrajectory.Result`. -/
def SUCCESSFUL : Int := 0

/-- `FollowJointTrajectory.Result.INVALID_GOAL`. -/
def INVALID_GOAL : Int := -1

/-- `FollowJointTrajectory.Result.INVALID_JOINTS`. -/
def INVALID_JOINTS : Int := -2

/-- `FollowJointTrajectory.Result.GOAL_TOLERANCE_VIOLATED`, the code the
position/navigation path assigns when a point exceeds its deadline. -/
def GOAL_TOLERANCE_VIOLATED : Int := -5

/-- The values of `xs` supplied at joint indexes whose name contains the arm
substring (`zip` with the names truncates `xs` to the indexes for which a
value was supplied, matching the source's `index < len(point.velocities)`
guard). -/
def armPairs (names : List String) (xs : List ℚ) : List ℚ :=
  ((names.zip xs).filter (fun q => isArmJoint q.1)).map Prod.snd

/-- The values of `xs` supplied at non-arm joint indexes, in joint order. -/
def nonArmPairs (names : List String) (xs : List ℚ) : List ℚ :=
  ((names.zip xs).filter (fun q => !(isArmJoint q.1))).map Prod.snd

/-- The names of the joints whose supplied `xs` values feed the merged arm
value. -/
def armNamesAt (names : List String) (xs : List ℚ) : List String :=
  ((names.zip xs).filter (fun q => isArmJoint q.1)).map Prod.fst

/-- The per-point merge of `merge_arm_joints` (source lines 54-99), expressed
per point: the source iterates joints in the outer loop and points in the
inner loop, appending to each new point; since each (joint, point) append is
independent, every new point ends up with its non-arm values in joint-index
order followed by the single merged arm value, which is what this function
computes directly: the merged position is the sum of the supplied arm
positions; the merged velocity (likewise acceleration) is the arithmetic
mean of the supplied arm velocities, appended only when at least one was
supplied. -/
def mergePointCore (names : List String) (pt : JointTrajectoryPoint) :
    JointTrajectoryPoint :=
  let armV := armPairs names pt.velocities
  let armA := armPairs names pt.accelerations
  { time_from_start := pt.time_from_start
    positions := nonArmPairs names pt.positions ++ [(armPairs names pt.positions).sum]
    velocities := nonArmPairs names pt.velocities ++
      (if armV.isEmpty then [] else [armV.sum / (armV.length : ℚ)])
    accelerations := nonArmPairs names pt.accelerations ++
      (if armA.isEmpty then [] else [armA.sum / (armA.length : ℚ)]) }

/-- `merge_arm_joints` (source lines 22-101).  The order of the guards follows
the source: collect the indexes whose name contains `joint_arm_l`; if there
are none, return the input unchanged; otherwise reject if `wrist_extension`
is also commanded, then reject unless exactly 4 such indexes exist; finally
build the merged trajectory, with the non-arm joints passed through in order
and `wrist_extension` appended last.  Reading `point.positions[index]` for
every joint index raises `IndexError` when a point's position list is shorter
than the name list; since the Python exception discards the partially built
trajectory, the check is hoisted in front of the pure construction here. -/
def merge_arm_joints (tr : JointTrajectory) : Except TrajErr JointTrajectory :=
  let armCount := (tr.joint_names.filter isArmJoint).length
  if armCount = 0 then
    .ok tr
  else if "wrist_extension" ∈ tr.joint_names then
    .error (.invalidJoints
      "Received a command for the wrist_extension joint and one or more telescoping_joints.")
  else if armCount ≠ 4 then
    .error (.invalidJoints
      "Commands with telescoping joints requires all telescoping joints to be present.")
  else if tr.points.any (fun pt => pt.positions.length < tr.joint_names.length) then
    .error .indexError
  else
    .ok { joint_names := tr.joint_names.filter (fun n => !(isArmJoint n)) ++ ["wrist_extension"]
          points := tr.points.map (mergePointCore tr.joint_names) }

/-- The joint names owned by the manipulation-path trajectory components
(`get_trajectory_components`, trajectory_components.py lines 97-104). -/
def componentNames : List String :=
  ["joint_head_pan", "joint_head_tilt", "joint_wrist_yaw", "stretch_gripper",
   "wrist_extension", "joint_lift", "position"]

/-- Observable events of the driver, in program order: operations on the mode
read/write lock (`robot_mode_rwlock`) and on the stop lock
(`robot_stop_lock`), writes to the shared `stop_the_robot` flag, calls into
the action server and hardware interface, and publications. -/
inductive Ev where
  | stopLockAcquire
  | stopLockRelease
  | setStopFlag (b : Bool)
  | acquireRead
  | releaseRead
  | updateGroups (names : List String)
  | setResultCode (c : Int)
  | abortGoal
  | succeedGoal
  | setPreempted
  | getStatus
  | initExecution
  | pushCommand (p : Nat)
  | cmdVelPush
  | setVelocity
  | startTrajectory
  | stopTrajectory
  | publishFeedback
  | publishState
  | spinOnce
deriving DecidableEq, Repr

/-- Events that command hardware motion (as opposed to status reads, lock
operations and publications). -/
def isHwCommand : Ev → Bool
  | .pushCommand _ => true
  | .cmdVelPush => true
  | .setVelocity => true
  | .startTrajectory => true
  | .stopTrajectory => true
  | _ => false

/-- `StretchBodyNode.default_goal_timeout_s` (stretch_driver.py line 47):
the fixed per-point deadline of the position/navigation execution path. -/
def default_goal_timeout_s : ℚ := 10

/-- `StretchBodyNode.set_mobile_base_velocity_callback` (stretch_driver.py
lines 79-88), reduced to its lock behaviour.  The callback acquires the mode
read lock; when the mode is not `navigation` it logs an error and returns
WITHOUT releasing the lock (line 84); otherwise it stores the commanded
velocities and releases.  `robot_mode` starts out as Python `None`, hence the
`Option String`. -/
def set_mobile_base_velocity_callback (robot_mode : Option String) : List Ev :=
  [.acquireRead] ++
    (if robot_mode = some "navigation" then [.releaseRead] else [])

/-- `StretchBodyNode.command_mobile_base_velocity_and_publish_state`
(stretch_driver.py lines 90-383), reduced to its lock and hardware behaviour:
acquire the mode read lock, command the base velocity in navigation mode,
take one status snapshot, publish the derived state, release the lock.  The
function has a single return path. -/
def command_mobile_base_velocity_and_publish_state (robot_mode : Option String) :
    List Ev :=
  [.acquireRead] ++
    (if robot_mode = some "navigation" then [.setVelocity, .cmdVelPush] else []) ++
    [.getStatus, .publishState, .releaseRead]

/-- Configuration of the manipulation execution path
(`JointTrajectoryAction.__init__` parameters). -/
structure ManipCfg where
  ignore_trajectory_velocities : Bool
  ignore_trajectory_accelerations : Bool
deriving DecidableEq, Repr

/-- External collaborator of the manipulation path: `execTicks` is the
number of polls for which `robot.is_trajectory_executing()` returns true
before playback reports completion (`rclpy.ok()` is taken to be true).  The
live measurements (`t_comp.get_position()`, `t_comp.get_velocity()`) feed
only the first-waypoint overwrite and the external interpolator, neither of
which is observable in the modelled outcome; the interpolated desired
position is never obtained, because the poll body calls
`t_comp.get_desired_position_at(dt)` (server line 377), a method no
trajectory component defines — see `execute_trajectory`. -/
structure ManipEnv where
  execTicks : Nat

/-- One feedback message of the manipulation poll loop (source lines
361-383): per joint the desired (interpolated) position, the actual
(measured) position and the error `actual - desired`. -/
structure Feedback where
  joint_names : List String
  desired : List ℚ
  actual : List ℚ
  error : List ℚ
deriving DecidableEq, Repr, Inhabited

/-- The only feedback the manipulation loop ever publishes: the per-joint
loop body raises before appending any value (see `execute_trajectory`), so
feedback reaches `publish_feedback` only when the merged joint list is
empty, with all position lists empty. -/
def emptyFeedback : Feedback :=
  { joint_names := [], desired := [], actual := [], error := [] }

/-- Source lines 329-334: optionally drop supplied velocities and/or
accelerations from every point. -/
def applyIgnores (cfg : ManipCfg) (tr : JointTrajectory) : JointTrajectory :=
  if cfg.ignore_trajectory_velocities || cfg.ignore_trajectory_accelerations then
    { tr with points := tr.points.map (fun pt =>
        { pt with
          velocities :=
            if cfg.ignore_trajectory_velocities then [] else pt.velocities
          accelerations :=
            if cfg.ignore_trajectory_accelerations then [] else pt.accelerations }) }
  else tr

/-- Outcome of the manipulation path: the returned result code, the observable
event trace, and the feedback messages published during polling. -/
structure ManipOut where
  code : Int
  events : List Ev
  feedbacks : List Feedback

/-- `JointTrajectoryAction.execute_trajectory` (source lines 306-408), the
manipulation-mode path.  Control flow, in source order:

1. under the stop lock, clear `stop_the_robot` and acquire the mode read lock;
2. for each point, compare `len(pt.positions)` with
   `len(goal.trajectory.joint_names)`; on a mismatch the source raises
   `InvalidGoalException` with a message formatted from `goal.joint_names` —
   an attribute the `FollowJointTrajectory` Goal message does not have, so the
   interpreter raises `AttributeError` before the exception object exists;
   that lands in the generic `except Exception` handler (lines 400-406):
   `stop_trajectory()` is called, the goal is aborted, and the returned
   result carries the ad-hoc code `-100`;
3. `merge_arm_joints`; an `InvalidJointException` is caught by the
   `FollowJointTrajectoryException` handler (lines 396-399): abort with the
   exception's code and no hardware call;
4. every merged joint name must be a key of `trajectory_components`,
   otherwise `InvalidJointException` as above;
5. apply the ignore-velocities/accelerations configuration;
6. the first waypoint of every joint is overwritten with live measurements
   and the waypoints are handed to the external interpolators; accessing
   `points[0]` with a nonempty joint list and an empty point list raises
   `IndexError` into the generic handler;
7. `start_trajectory()`, then the poll loop while
   `is_trajectory_executing()`: each iteration walks the joints computing
   `t_comp.get_position()` and `t_comp.get_desired_position_at(dt)` (line
   377) — but every in-repo trajectory component defines only
   `get_desired_position` (trajectory_components.py lines 16, 58), so with
   at least one joint the FIRST poll iteration raises `AttributeError`
   before `publish_feedback`, landing in the generic handler:
   `stop_trajectory()`, abort, result code `-100`.  Feedback is therefore
   published (with empty position lists) only when the merged joint list is
   empty; playback otherwise completes only if it already reports
   not-executing at the first poll, in which case `stop_trajectory()`,
   `succeed()` and the SUCCESSFUL result follow with no feedback published.
The `finally` block releases the mode read lock on every path. -/
def execute_trajectory (cfg : ManipCfg) (env : ManipEnv) (goal : Goal) :
    ManipOut :=
  let tr := goal.trajectory
  let pre : List Ev := [.stopLockAcquire, .setStopFlag false, .acquireRead, .stopLockRelease]
  if tr.points.any (fun pt => pt.positions.length ≠ tr.joint_names.length) then
    { code := -100
      events := pre ++ [.stopTrajectory, .abortGoal, .releaseRead]
      feedbacks := [] }
  else
    match merge_arm_joints tr with
    | .error (.invalidJoints _) =>
      { code := INVALID_JOINTS
        events := pre ++ [.abortGoal, .releaseRead]
        feedbacks := [] }
    | .error (.invalidGoal _) =>
      { code := INVALID_GOAL
        events := pre ++ [.abortGoal, .releaseRead]
        feedbacks := [] }
    | .error .indexError =>
      { code := -100
        events := pre ++ [.stopTrajectory, .abortGoal, .releaseRead]
        feedbacks := [] }
    | .ok merged =>
      if merged.joint_names.any (fun n => decide (n ∉ componentNames)) then
        { code := INVALID_JOINTS
          events := pre ++ [.abortGoal, .releaseRead]
          feedbacks := [] }
      else
        let merged2 := applyIgnores cfg merged
        if merged2.joint_names ≠ [] ∧ merged2.points = [] then
          { code := -100
            events := pre ++ [.stopTrajectory, .abortGoal, .releaseRead]
            feedbacks := [] }
        else
          if env.execTicks = 0 ∨ merged2.joint_names = [] then
            { code := SUCCESSFUL
              events := pre ++ [.startTrajectory] ++
                List.replicate env.execTicks .publishFeedback ++
                [.stopTrajectory, .succeedGoal, .releaseRead]
              feedbacks := List.replicate env.execTicks emptyFeedback }
          else
            { code := -100
              events := pre ++ [.startTrajectory, .stopTrajectory, .abortGoal,
                .releaseRead]
              feedbacks := [] }

/-- External collaborators of the position/navigation path (`execute_cb`,
source lines 150-254).  The seven command groups live in `command_groups.py`
and are abstracted into the responses the source inspects: `updateOk` is
`all(updates)` for the goal's joint names, `numValid` is
`sum(get_num_valid_commands())`, `setGoalOk p` is `all(valid_goals)` for
point `p`, `reached p s` is `all(goals_reached)` at its `s`-th evaluation for
point `p` (`s = 0` is the evaluation preceding the while loop), `elapsed p s`
is the elapsed time in seconds since point `p`'s start as observed by
iteration `s`'s deadline check, `preempt p s` is
`stop_the_robot or is_cancel_requested` as read by iteration `s`, and
`fatal p s` is `any(ret == True for ret in named_errors)`. -/
structure PNEnv where
  updateOk : Bool
  numValid : Nat
  setGoalOk : Nat → Bool
  reached : Nat → Nat → Bool
  elapsed : Nat → Nat → ℚ
  preempt : Nat → Nat → Bool
  fatal : Nat → Nat → Bool

/-- How the position/navigation path terminated. -/
inductive ExitKind where
  | reached
  | succeeded
  | updateRejected
  | invalidJoints
  | invalidGoal
  | timeout
  | preempted
  | fatal
  | diverged
deriving DecidableEq, Repr

/-- The events of the preemption branch (source lines 228-236): under the
stop lock, `set_preempted()` on the server, reset `stop_the_robot` to False,
release the mode read lock, return (exiting the `with` block releases the
stop lock). -/
def preemptBlock : List Ev :=
  [.stopLockAcquire, .setPreempted, .setStopFlag false, .releaseRead, .stopLockRelease]

/-- The poll loop for one trajectory point (source lines 216-248).  Iteration
`s` checks, in order: all goals reached (sampled before the loop for `s = 0`
and at the end of each iteration); deadline exceeded
(`now - goal_start_time > default_goal_timeout_duration`, the callback sets
GOAL_TOLERANCE_VIOLATED and aborts, then the read lock is released);
preemption (see `preemptBlock`); a fresh status snapshot and
`update_execution` (a fatal return releases the lock without touching the
result code); feedback publication; one `rclpy.spin_once` yield.  The `fuel`
argument bounds the number of modelled iterations; exhausting it stands for
a loop that has not yet exited. -/
def pollLoop (env : PNEnv) (p : Nat) : Nat → Nat → List Ev × ExitKind
  | _, 0 => ([], .diverged)
  | s, fuel + 1 =>
    if env.reached p s then
      ([], .reached)
    else if default_goal_timeout_s < env.elapsed p s then
      ([.setResultCode GOAL_TOLERANCE_VIOLATED, .abortGoal, .releaseRead], .timeout)
    else if env.preempt p s then
      (preemptBlock, .preempted)
    else if env.fatal p s then
      ([.stopLockAcquire, .stopLockRelease, .getStatus, .releaseRead], .fatal)
    else
      let r := pollLoop env p (s + 1) fuel
      ([.stopLockAcquire, .stopLockRelease, .getStatus, .publishFeedback, .spinOnce]
        ++ r.1, r.2)

/-- The per-point sequence of `execute_cb` (source lines 197-252): for point
`p`, `set_goal` on all groups (a rejection releases the read lock and
returns, the group having reported INVALID_GOAL through its callback), one
status snapshot, `init_execution`, one atomic `push_command`, then the poll
loop; when all goals are reached, advance to the next point.  After the last
point, `success_callback` sets SUCCESSFUL, succeeds the goal, and the read
lock is released. -/
def runPoints (env : PNEnv) (fuel : Nat) :
    List JointTrajectoryPoint → Nat → List Ev × ExitKind
  | [], _ => ([.setResultCode SUCCESSFUL, .succeedGoal, .releaseRead], .succeeded)
  | _ :: rest, p =>
    if env.setGoalOk p then
      let r := pollLoop env p 0 fuel
      match r.2 with
      | .reached =>
        let rr := runPoints env fuel rest (p + 1)
        ([.getStatus, .initExecution, .pushCommand p] ++ r.1 ++ rr.1, rr.2)
      | ex => ([.getStatus, .initExecution, .pushCommand p] ++ r.1, ex)
    else ([.releaseRead], .invalidGoal)

/-- `JointTrajectoryAction.execute_cb` on the position/navigation path
(source lines 154-254; line 151 dispatches to `execute_trajectory` instead
when the mode is `manipulation`).  In order: under the stop lock, clear
`stop_the_robot`; acquire the mode read lock; call `update` on all seven
command groups with the goal's joint names AS RECEIVED (`commanded_joint_names
= goal.trajectory.joint_names`, line 162 — no merge happens on this path); a
rejection releases the lock and returns (the group reported the error);
`num_valid_points` of zero or fewer than the commanded names reports
INVALID_JOINTS; then the points run through `runPoints`. -/
def execute_cb_position_nav (env : PNEnv) (goal : Goal) (fuel : Nat) :
    List Ev × ExitKind :=
  let names := goal.trajectory.joint_names
  let pre : List Ev :=
    [.stopLockAcquire, .setStopFlag false, .stopLockRelease, .acquireRead,
     .updateGroups names]
  let body : List Ev × ExitKind :=
    if env.updateOk = false then
      ([.releaseRead], .updateRejected)
    else if env.numValid = 0 then
      ([.setResultCode INVALID_JOINTS, .abortGoal, .releaseRead], .invalidJoints)
    else if env.numValid ≠ names.length then
      ([.setResultCode INVALID_JOINTS, .abortGoal, .releaseRead], .invalidJoints)
    else
      runPoints env fuel goal.trajectory.points 0
  (pre ++ body.1, body.2)

/-- The joint names handed to the command groups' `update`, extracted from a
trace. -/
def updateNamesOf (evs : List Ev) : Option (List String) :=
  evs.findSome? (fun e =>
    match e with
    | .updateGroups ns => some ns
    | _ => none)

/-- Number of read acquisitions of the mode lock in a trace. -/
def readAcquires (evs : List Ev) : Nat :=
  (evs.filter (fun e => e = .acquireRead)).length

/-- Number of read releases of the mode lock in a trace. -/
def readReleases (evs : List Ev) : Nat :=
  (evs.filter (fun e => e = .releaseRead)).length

/-- Iteration `s` of the poll loop for point `p` takes no exit branch: goals
not yet reached, deadline not exceeded, no preemption signal, no fatal
fault. -/
def live (env : PNEnv) (p s : Nat) : Prop :=
  env.reached p s = false ∧
  env.elapsed p s ≤ default_goal_timeout_s ∧
  env.preempt p s = false ∧
  env.fatal p s = false

/-- Scenario 1 of the spec: the four segment joints, one point, positions all
0.1 (exact rationals in this model). -/
def scenarioTraj : JointTrajectory :=
  ⟨armSegmentNames, [⟨0, [1/10, 1/10, 1/10, 1/10], [], []⟩]⟩

/-- Four names that all contain the substring `joint_arm_l` although only two
of them are physical segment names. -/
def pseudoArmTraj : JointTrajectory :=
  ⟨["joint_arm_l0", "joint_arm_l1", "joint_arm_l4", "joint_arm_l5"],
   [⟨0, [1, 1, 1, 1], [], []⟩]⟩

/-- The virtual joint together with one segment joint (spec Scenario 2). -/
def wristMixTraj : JointTrajectory :=
  ⟨["wrist_extension", "joint_arm_l0"], []⟩

/-- A single name that contains the substring `joint_arm_l` but is none of
the four physical segment names. -/
def strayArmTraj : JointTrajectory :=
  ⟨["joint_arm_l9"], []⟩

/-- A trajectory with no arm-related joint at all. -/
def liftOnlyTraj : JointTrajectory :=
  ⟨["joint_lift"], []⟩

/-- Concrete manipulation configuration used by witnesses. -/
def cfgW : ManipCfg := ⟨false, false⟩

/-- Concrete manipulation environment used for concrete evaluations:
playback reports completion after two polls. -/
def envW : ManipEnv :=
  { execTicks := 2 }

/-- A well-formed single-joint, single-point goal. -/
def goalW : Goal := ⟨⟨["joint_lift"], [⟨0, [0], [], []⟩]⟩⟩

/-- A goal whose only point carries two positions for one joint name. -/
def badLenGoal : Goal := ⟨⟨["joint_lift"], [⟨0, [0, 0], [], []⟩]⟩⟩

/-- A goal naming exactly the four physical segment joints, with the
Scenario-1 point. -/
def segGoal : Goal := ⟨scenarioTraj⟩

/-- A single-joint, single-point goal for the position/navigation path. -/
def pnGoal : Goal := ⟨⟨["joint_lift"], [⟨0, [0], [], []⟩]⟩⟩

/-- Position/navigation environment whose groups accept everything and reach
every point immediately. -/
def envPN0 : PNEnv :=
  { updateOk := true
    numValid := 4
    setGoalOk := fun _ => true
    reached := fun _ _ => true
    elapsed := fun _ _ => 0
    preempt := fun _ _ => false
    fatal := fun _ _ => false }

/-- Position/navigation environment in which the preemption signal is first
observed at iteration 1 of every point, the goals are never reached and the
clock never passes the deadline. -/
def envPre : PNEnv :=
  { updateOk := true
    numValid := 1
    setGoalOk := fun _ => true
    reached := fun _ _ => false
    elapsed := fun _ _ => 0
    preempt := fun _ s => s == 1
    fatal := fun _ _ => false }

/-- Position/navigation environment in which the elapsed time first exceeds
the 10 s deadline at iteration 1 of every point, with the goals never
reached. -/
def envTmo : PNEnv :=
  { updateOk := true
    numValid := 1
    setGoalOk := fun _ => true
    reached := fun _ _ => false
    elapsed := fun _ s => if s == 1 then 11 else 0
    preempt := fun _ _ => false
    fatal := fun _ _ => false }

/-- Decidable equality of `Except` results, for concrete evaluation. -/
instance {ε α : Type} [DecidableEq ε] [DecidableEq α] : DecidableEq (Except ε α) :=
  fun a b =>
    match a, b with
    | .ok x, .ok y =>
      if h : x = y then isTrue (by rw [h]) else isFalse (by simp [h])
    | .error x, .error y =>
      if h : x = y then isTrue (by rw [h]) else isFalse (by simp [h])
    | .ok _, .error _ => isFalse (by simp)
    | .error _, .ok _ => isFalse (by simp)

/-! ### List helpers -/

/-- Projecting the first components out of a filter on the first component
commutes with filtering the projected list. -/
theorem filter_fst_map_fst {α β : Type} (p : α → Bool) :
    ∀ l : List (α × β),
      (l.filter (fun q => p q.1)).map Prod.fst = (l.map Prod.fst).filter p := by
  intro l
  induction l with
  | nil => simp
  | cons a t ih =>
    by_cases h : p a.1 <;> simp [h, ih]

/-! ### Properties of merge_arm_joints (claims C7, C8, C9) -/

/-- A successful merge preserves the number of trajectory points. -/
theorem merge_ok_points_length (tr m : JointTrajectory)
    (h : merge_arm_joints tr = .ok m) : m.points.length = tr.points.length := by
  unfold merge_arm_joints at h
  by_cases h0 : (tr.joint_names.filter isArmJoint).length = 0
  · simp only [h0, if_pos rfl] at h
    cases h
    rfl
  · simp only [h0, if_neg h0] at h
    by_cases hwx : "wrist_extension" ∈ tr.joint_names
    · simp [hwx] at h
    · simp only [hwx, if_neg hwx] at h
      by_cases h4 : (tr.joint_names.filter isArmJoint).length ≠ 4
      · simp [h4] at h
      · simp only [h4, if_neg h4] at h
        by_cases hany : tr.points.any
            (fun pt => pt.positions.length < tr.joint_names.length)
        · simp [hany] at h
        · simp only [hany, if_neg] at h
          cases h
          simp

/-- C9's counterexample input is not a no-op of the merge although none of
the four physical segment names occurs in it: the code keys on the substring
`joint_arm_l`, which `joint_arm_l9` also contains, so the merge raises
instead of passing the trajectory through. -/
theorem c9_noop_counterexample :
    (∀ n ∈ armSegmentNames, n ∉ strayArmTraj.joint_names) ∧
    merge_arm_joints strayArmTraj ≠ .ok strayArmTraj := by
  decide

/-- Case analysis of a successful merge: either no name contains the
`joint_arm_l` substring and the input is passed through unchanged, or
exactly four names contain it, `wrist_extension` is absent, and the result
consists of the non-arm names (order preserved) followed by
`wrist_extension`, with every point merged by `mergePointCore`. -/
theorem merge_cases (tr m : JointTrajectory) (h : merge_arm_joints tr = .ok m) :
    ((tr.joint_names.filter isArmJoint).length = 0 ∧ m = tr) ∨
    ((tr.joint_names.filter isArmJoint).length = 4 ∧
     "wrist_extension" ∉ tr.joint_names ∧
     m.joint_names =
       tr.joint_names.filter (fun n => !(isArmJoint n)) ++ ["wrist_extension"] ∧
     m.points = tr.points.map (mergePointCore tr.joint_names)) := by
  unfold merge_arm_joints at h
  by_cases h0 : (tr.joint_names.filter isArmJoint).length = 0
  · simp only [h0, if_pos rfl] at h
    exact Or.inl ⟨h0, (Except.ok.inj h).symm⟩
  · simp only [h0, if_neg h0] at h
    by_cases hwx : "wrist_extension" ∈ tr.joint_names
    · simp [hwx] at h
    · simp only [hwx, if_neg hwx] at h
      by_cases h4 : (tr.joint_names.filter isArmJoint).length ≠ 4
      · simp [h4] at h
      · simp only [h4, if_neg h4] at h
        by_cases hany : tr.points.any
            (fun pt => pt.positions.length < tr.joint_names.length)
        · simp [hany] at h
        · simp only [hany, if_neg] at h
          have hm := Except.ok.inj h
          refine Or.inr ⟨by omega, hwx, ?_, ?_⟩
          · rw [← hm]
          · rw [← hm]

/-- C9 (amended): the merge is a no-op — it returns the input trajectory
unchanged, without raising — if and only if no joint name contains the
substring `joint_arm_l` (the code's detection criterion; for trajectories
whose arm-like names are exactly segment names this coincides with the
original claim, but names such as `joint_arm_l9` are also caught). -/
theorem c9_noop_iff_amended (tr : JointTrajectory) :
    merge_arm_joints tr = .ok tr ↔ ∀ n ∈ tr.joint_names, isArmJoint n = false := by
  constructor
  · intro h
    rcases merge_cases tr tr h with ⟨h0, _⟩ | ⟨_, hwx, hj, _⟩
    · intro n hn
      have hnil : tr.joint_names.filter isArmJoint = [] :=
        List.length_eq_zero.mp h0
      have := List.filter_eq_nil_iff.mp hnil n hn
      simpa using this
    · exfalso
      apply hwx
      rw [hj]
      simp
  · intro h
    have hnil : tr.joint_names.filter isArmJoint = [] :=
      List.filter_eq_nil_iff.mpr (fun n hn => by simp [h n hn])
    unfold merge_arm_joints
    simp [hnil]

/-- C9 witness: the amended equivalence, instantiated at a concrete
arm-free trajectory. -/
theorem c9_noop_iff_amended_witness :
    merge_arm_joints liftOnlyTraj = .ok liftOnlyTraj ↔
      ∀ n ∈ liftOnlyTraj.joint_names, isArmJoint n = false :=
  c9_noop_iff_amended liftOnlyTraj

/-- C8's counterexample: four names all containing the substring
`joint_arm_l`, of which only two are physical segment names.  Exactly 2 of
the 4 segment names are present (1–3, not 0, not 4), yet the merge does not
yield InvalidJoints — it succeeds, because the code merely counts substring
matches. -/
theorem c8_substring_counterexample :
    ("joint_arm_l0" ∈ pseudoArmTraj.joint_names ∧
     "joint_arm_l1" ∈ pseudoArmTraj.joint_names ∧
     "joint_arm_l2" ∉ pseudoArmTraj.joint_names ∧
     "joint_arm_l3" ∉ pseudoArmTraj.joint_names ∧
     "wrist_extension" ∉ pseudoArmTraj.joint_names) ∧
    ∃ m, merge_arm_joints pseudoArmTraj = .ok m :=
  ⟨by decide, _, rfl⟩

/-- C8 (amended): the merge yields InvalidJoints for every trajectory in
which `wrist_extension` appears together with at least one name containing
the substring `joint_arm_l`, and for every trajectory in which the number of
names containing that substring is between 1 and 3; the four segment names
are detected by this substring rule, so four matching names merge without
error even when they are not the four physical segment joints. -/
theorem c8_invalid_joints_amended (tr : JointTrajectory)
    (h : ("wrist_extension" ∈ tr.joint_names ∧
            (tr.joint_names.filter isArmJoint).length ≠ 0) ∨
         (1 ≤ (tr.joint_names.filter isArmJoint).length ∧
            (tr.joint_names.filter isArmJoint).length ≤ 3)) :
    ∃ msg, merge_arm_joints tr = .error (.invalidJoints msg) := by
  unfold merge_arm_joints
  by_cases h0 : (tr.joint_names.filter isArmJoint).length = 0
  · rcases h with ⟨_, hne⟩ | ⟨h1, _⟩
    · exact absurd h0 hne
    · omega
  · by_cases hwx : "wrist_extension" ∈ tr.joint_names
    · simp only [h0, if_neg h0, if_pos hwx]
      exact ⟨_, rfl⟩
    · have h4 : (tr.joint_names.filter isArmJoint).length ≠ 4 := by
        rcases h with ⟨hw, _⟩ | ⟨_, h3⟩
        · exact absurd hw hwx
        · omega
      simp only [h0, if_neg h0, if_neg hwx, if_pos h4]
      exact ⟨_, rfl⟩

/-- C8 witness: the amended statement at the virtual joint mixed with one
segment joint (spec Scenario 2). -/
theorem c8_invalid_joints_amended_witness :
    ∃ msg, merge_arm_joints wristMixTraj = .error (.invalidJoints msg) :=
  c8_invalid_joints_amended wristMixTraj (Or.inl ⟨by decide, by decide⟩)

/-- A trajectory with exactly four arm-substring names and no
`wrist_extension` merges successfully, provided every point supplies a
position for every joint. -/
theorem merge_four_ok (tr : JointTrajectory)
    (hc : (tr.joint_names.filter isArmJoint).length = 4)
    (hw : "wrist_extension" ∉ tr.joint_names)
    (hlen : ∀ pt ∈ tr.points, tr.joint_names.length ≤ pt.positions.length) :
    merge_arm_joints tr = .ok
      { joint_names :=
          tr.joint_names.filter (fun n => !(isArmJoint n)) ++ ["wrist_extension"]
        points := tr.points.map (mergePointCore tr.joint_names) } := by
  have h0 : ¬ (tr.joint_names.filter isArmJoint).length = 0 := by omega
  have h4 : ¬ (tr.joint_names.filter isArmJoint).length ≠ 4 := by omega
  have hany : tr.points.any
      (fun pt => pt.positions.length < tr.joint_names.length) = false := by
    rw [List.any_eq_false]
    intro pt hpt
    simpa using not_lt.mpr (hlen pt hpt)
  simp [merge_arm_joints, h0, h4, hany, hw]

/-- C7: a trajectory containing exactly the four arm segment joints (its
arm-substring names are a permutation of them), any non-arm joints, and no
`wrist_extension` merges successfully; per point the merged position is the
sum of the four segment positions (the summed pairs are exactly the segment
joints), the merged velocity is the arithmetic mean of the supplied segment
velocities and is omitted when none were supplied, and the merged
acceleration follows the same rule; non-arm values pass through in order and
`wrist_extension` is the appended merged name.  In particular Scenario 1:
the four segment names with one point of positions 0.1 each merge to
`wrist_extension` at position 0.4. -/
theorem c7_merge_four_segments (tr : JointTrajectory)
    (hperm : (tr.joint_names.filter isArmJoint).Perm armSegmentNames)
    (hw : "wrist_extension" ∉ tr.joint_names)
    (hlen : ∀ pt ∈ tr.points, tr.joint_names.length ≤ pt.positions.length) :
    (merge_arm_joints tr = .ok
      { joint_names :=
          tr.joint_names.filter (fun n => !(isArmJoint n)) ++ ["wrist_extension"]
        points := tr.points.map (mergePointCore tr.joint_names) }) ∧
    (∀ pt ∈ tr.points,
      (armNamesAt tr.joint_names pt.positions).Perm armSegmentNames ∧
      (mergePointCore tr.joint_names pt).time_from_start = pt.time_from_start ∧
      (mergePointCore tr.joint_names pt).positions =
        nonArmPairs tr.joint_names pt.positions ++
          [(armPairs tr.joint_names pt.positions).sum] ∧
      (armPairs tr.joint_names pt.velocities = [] →
        (mergePointCore tr.joint_names pt).velocities =
          nonArmPairs tr.joint_names pt.velocities) ∧
      (armPairs tr.joint_names pt.velocities ≠ [] →
        (mergePointCore tr.joint_names pt).velocities =
          nonArmPairs tr.joint_names pt.velocities ++
            [(armPairs tr.joint_names pt.velocities).sum /
              ((armPairs tr.joint_names pt.velocities).length : ℚ)]) ∧
      (armPairs tr.joint_names pt.accelerations = [] →
        (mergePointCore tr.joint_names pt).accelerations =
          nonArmPairs tr.joint_names pt.accelerations) ∧
      (armPairs tr.joint_names pt.accelerations ≠ [] →
        (mergePointCore tr.joint_names pt).accelerations =
          nonArmPairs tr.joint_names pt.accelerations ++
            [(armPairs tr.joint_names pt.accelerations).sum /
              ((armPairs tr.joint_names pt.accelerations).length : ℚ)])) ∧
    merge_arm_joints scenarioTraj = .ok ⟨["wrist_extension"], [⟨0, [2/5], [], []⟩]⟩ := by
  have hc : (tr.joint_names.filter isArmJoint).length = 4 := by
    simpa using hperm.length_eq
  refine ⟨merge_four_ok tr hc hw hlen, ?_, ?_⟩
  · intro pt hpt
    refine ⟨?_, rfl, rfl, ?_, ?_, ?_, ?_⟩
    · have he : armNamesAt tr.joint_names pt.positions =
          tr.joint_names.filter isArmJoint := by
        unfold armNamesAt
        rw [filter_fst_map_fst, List.map_fst_zip _ _ (hlen pt hpt)]
      rw [he]
      exact hperm
    · intro hnil
      simp [mergePointCore, hnil]
    · intro hne
      have hie : (armPairs tr.joint_names pt.velocities).isEmpty = false := by
        rcases h : armPairs tr.joint_names pt.velocities with _ | ⟨a, t⟩
        · exact absurd h hne
        · rfl
      simp [mergePointCore, hie]
    · intro hnil
      simp [mergePointCore, hnil]
    · intro hne
      have hie : (armPairs tr.joint_names pt.accelerations).isEmpty = false := by
        rcases h : armPairs tr.joint_names pt.accelerations with _ | ⟨a, t⟩
        · exact absurd h hne
        · rfl
      simp [mergePointCore, hie]
  · have a0 : isArmJoint "joint_arm_l0" = true := by decide
    have a1 : isArmJoint "joint_arm_l1" = true := by decide
    have a2 : isArmJoint "joint_arm_l2" = true := by decide
    have a3 : isArmJoint "joint_arm_l3" = true := by decide
    have hmain := merge_four_ok scenarioTraj (by decide) (by decide) (by decide)
    rw [hmain]
    norm_num [scenarioTraj, armSegmentNames, mergePointCore, armPairs,
      nonArmPairs, a0, a1, a2, a3]

/-- C7 witness: the general theorem applied to the Scenario-1 trajectory. -/
theorem c7_merge_four_segments_witness :
    merge_arm_joints scenarioTraj = .ok
      { joint_names :=
          scenarioTraj.joint_names.filter (fun n => !(isArmJoint n)) ++ ["wrist_extension"]
        points := scenarioTraj.points.map (mergePointCore scenarioTraj.joint_names) } :=
  (c7_merge_four_segments scenarioTraj (by decide) (by decide) (by decide)).1

/-! ### Poll-loop lemmas (position/navigation path) -/

/-- The poll loop never pushes a command: the single atomic `push_command`
of each point happens before the loop starts. -/
theorem pollLoop_no_push (env : PNEnv) (p r : Nat) :
    ∀ (fuel s : Nat), Ev.pushCommand r ∉ (pollLoop env p s fuel).1 := by
  intro fuel
  induction fuel with
  | zero => intro s; simp [pollLoop]
  | succ n ih =>
    intro s
    simp only [pollLoop]
    split
    · simp
    split
    · simp
    split
    · simp [preemptBlock]
    split
    · simp
    · simp only [List.mem_append]
      rintro (h | h)
      · simp at h
      · exact ih (s + 1) h

/-- A live iteration runs its body and continues with the next sample. -/
theorem pollLoop_step (env : PNEnv) (p s fuel : Nat) (h : live env p s) :
    pollLoop env p s (fuel + 1) =
      ([.stopLockAcquire, .stopLockRelease, .getStatus, .publishFeedback, .spinOnce]
        ++ (pollLoop env p (s + 1) fuel).1, (pollLoop env p (s + 1) fuel).2) := by
  obtain ⟨h1, h2, h3, h4⟩ := h
  simp [pollLoop, h1, h3, h4, not_lt.mpr h2]

/-- If the first `n` iterations are live and at iteration `n` the goals are
still unreached while the elapsed time exceeds the deadline, the loop exits
with `.timeout`, having set GOAL_TOLERANCE_VIOLATED and aborted the goal. -/
theorem pollLoop_timeout_fires (env : PNEnv) (p : Nat) :
    ∀ (n s fuel : Nat),
      (∀ j, j < n → live env p (s + j)) →
      env.reached p (s + n) = false →
      default_goal_timeout_s < env.elapsed p (s + n) →
      n < fuel →
      (pollLoop env p s fuel).2 = .timeout ∧
      Ev.setResultCode GOAL_TOLERANCE_VIOLATED ∈ (pollLoop env p s fuel).1 ∧
      Ev.abortGoal ∈ (pollLoop env p s fuel).1 := by
  intro n
  induction n with
  | zero =>
    intro s fuel _ h2 h3 hf
    obtain ⟨f, rfl⟩ : ∃ f, fuel = f + 1 := ⟨fuel - 1, by omega⟩
    rw [Nat.add_zero] at h2 h3
    simp [pollLoop, h2, h3]
  | succ m ih =>
    intro s fuel hlive h2 h3 hf
    obtain ⟨f, rfl⟩ : ∃ f, fuel = f + 1 := ⟨fuel - 1, by omega⟩
    rw [pollLoop_step env p s f (hlive 0 (by omega))]
    have hlive1 : ∀ j, j < m → live env p (s + 1 + j) := by
      intro j hj
      have := hlive (j + 1) (by omega)
      have e : s + (j + 1) = s + 1 + j := by omega
      rwa [e] at this
    have h2a : env.reached p (s + 1 + m) = false := by
      have e : s + (m + 1) = s + 1 + m := by omega
      rwa [e] at h2
    have h3a : default_goal_timeout_s < env.elapsed p (s + 1 + m) := by
      have e : s + (m + 1) = s + 1 + m := by omega
      rwa [e] at h3
    obtain ⟨ha, hb, hc⟩ := ih (s + 1) f hlive1 h2a h3a (by omega)
    exact ⟨ha, by simp [hb], by simp [hc]⟩

/-- If the first `n` iterations are live and at iteration `n` the goals are
unreached, the deadline has not passed and the preemption signal is
observed, the loop exits with `.preempted`. -/
theorem pollLoop_preempt_fires (env : PNEnv) (p : Nat) :
    ∀ (n s fuel : Nat),
      (∀ j, j < n → live env p (s + j)) →
      env.reached p (s + n) = false →
      env.elapsed p (s + n) ≤ default_goal_timeout_s →
      env.preempt p (s + n) = true →
      n < fuel →
      (pollLoop env p s fuel).2 = .preempted := by
  intro n
  induction n with
  | zero =>
    intro s fuel _ h2 h3 h4 hf
    obtain ⟨f, rfl⟩ : ∃ f, fuel = f + 1 := ⟨fuel - 1, by omega⟩
    rw [Nat.add_zero] at h2 h3 h4
    simp [pollLoop, h2, h4, not_lt.mpr h3]
  | succ m ih =>
    intro s fuel hlive h2 h3 h4 hf
    obtain ⟨f, rfl⟩ : ∃ f, fuel = f + 1 := ⟨fuel - 1, by omega⟩
    rw [pollLoop_step env p s f (hlive 0 (by omega))]
    have hlive1 : ∀ j, j < m → live env p (s + 1 + j) := by
      intro j hj
      have := hlive (j + 1) (by omega)
      have e : s + (j + 1) = s + 1 + j := by omega
      rwa [e] at this
    have e : s + (m + 1) = s + 1 + m := by omega
    rw [e] at h2 h3 h4
    exact ih (s + 1) f hlive1 h2 h3 h4 (by omega)

/-- Whenever the loop exits with `.preempted`, its trace ends with the
preemption block. -/
theorem pollLoop_preempt_suffix (env : PNEnv) (p : Nat) :
    ∀ (fuel s : Nat), (pollLoop env p s fuel).2 = .preempted →
      ∃ pre, (pollLoop env p s fuel).1 = pre ++ preemptBlock := by
  intro fuel
  induction fuel with
  | zero => intro s h; simp [pollLoop] at h
  | succ n ih =>
    intro s h
    by_cases hr : env.reached p s
    · simp [pollLoop, hr] at h
    by_cases ht : default_goal_timeout_s < env.elapsed p s
    · simp [pollLoop, hr, ht] at h
    by_cases hp : env.preempt p s
    · refine ⟨[], ?_⟩
      simp [pollLoop, hr, ht, hp]
    by_cases hf : env.fatal p s
    · simp [pollLoop, hr, ht, hp, hf] at h
    · have h2 : (pollLoop env p (s + 1) n).2 = .preempted := by
        simpa [pollLoop, hr, ht, hp, hf] using h
      obtain ⟨pre, hpre⟩ := ih (s + 1) h2
      refine ⟨[.stopLockAcquire, .stopLockRelease, .getStatus, .publishFeedback,
        .spinOnce] ++ pre, ?_⟩
      simp [pollLoop, hr, ht, hp, hf, hpre]

/-- If every point before `p` is accepted and reached, point `p` is accepted,
and its poll loop does not exit with `.reached`, then the whole point
sequence terminates with that exit; the trace is some prefix followed by the
poll-loop trace of point `p`, and the prefix pushes no command for any point
beyond `p`. -/
theorem runPoints_stops (env : PNEnv) (fuel : Nat) :
    ∀ (pts : List JointTrajectoryPoint) (i p : Nat),
      i ≤ p → p - i < pts.length →
      (∀ q, i ≤ q → q < p →
        env.setGoalOk q = true ∧ (pollLoop env q 0 fuel).2 = .reached) →
      env.setGoalOk p = true →
      (pollLoop env p 0 fuel).2 ≠ .reached →
      (runPoints env fuel pts i).2 = (pollLoop env p 0 fuel).2 ∧
      ∃ pre, (runPoints env fuel pts i).1 = pre ++ (pollLoop env p 0 fuel).1 ∧
        ∀ r, p < r → Ev.pushCommand r ∉ pre := by
  intro pts
  induction pts with
  | nil =>
    intro i p h1 h2 _ _ _
    simp at h2
  | cons x rest ih =>
    intro i p hle hlen hprev hsg hne
    by_cases hip : i = p
    · subst hip
      have key : runPoints env fuel (x :: rest) i =
          ([.getStatus, .initExecution, .pushCommand i] ++ (pollLoop env i 0 fuel).1,
           (pollLoop env i 0 fuel).2) := by
        cases hx : (pollLoop env i 0 fuel).2 <;>
          first
            | exact absurd hx hne
            | simp [runPoints, hsg, hx]
      refine ⟨by rw [key], [.getStatus, .initExecution, .pushCommand i],
        by rw [key], ?_⟩
      intro r hr hmem
      simp at hmem
      omega
    · have hi : i < p := by omega
      obtain ⟨hsgi, hri⟩ := hprev i (le_refl i) hi
      have hlen1 : p - (i + 1) < rest.length := by
        simp at hlen
        omega
      obtain ⟨hex, pre, hpre, hpush⟩ :=
        ih (i + 1) p (by omega) hlen1
          (fun q hq1 hq2 => hprev q (by omega) hq2) hsg hne
      constructor
      · simp [runPoints, hsgi, hri, hex]
      · refine ⟨[.getStatus, .initExecution, .pushCommand i] ++
          ((pollLoop env i 0 fuel).1 ++ pre), ?_, ?_⟩
        · simp [runPoints, hsgi, hri, hpre, List.append_assoc]
        · intro r hr hmem
          simp only [List.append_assoc, List.mem_append] at hmem
          rcases hmem with h | h | h
          · simp at h
            omega
          · exact pollLoop_no_push env i r fuel 0 h
          · exact hpush r hr h

/-- Whenever the point sequence terminates with `.preempted`, its trace ends
with the preemption block. -/
theorem runPoints_preempt_suffix (env : PNEnv) (fuel : Nat) :
    ∀ (pts : List JointTrajectoryPoint) (i : Nat),
      (runPoints env fuel pts i).2 = .preempted →
      ∃ pre, (runPoints env fuel pts i).1 = pre ++ preemptBlock := by
  intro pts
  induction pts with
  | nil => intro i h; simp [runPoints] at h
  | cons x rest ih =>
    intro i h
    by_cases hsg : env.setGoalOk i
    · cases hx : (pollLoop env i 0 fuel).2
      · have h2 : (runPoints env fuel rest (i + 1)).2 = .preempted := by
          simpa [runPoints, hsg, hx] using h
        obtain ⟨pre, hpre⟩ := ih (i + 1) h2
        refine ⟨[.getStatus, .initExecution, .pushCommand i] ++
          ((pollLoop env i 0 fuel).1 ++ pre), ?_⟩
        simp [runPoints, hsg, hx, hpre, List.append_assoc]
      · simp [runPoints, hsg, hx] at h
      · simp [runPoints, hsg, hx] at h
      · simp [runPoints, hsg, hx] at h
      · simp [runPoints, hsg, hx] at h
      · simp [runPoints, hsg, hx] at h
      · obtain ⟨pre, hpre⟩ := pollLoop_preempt_suffix env i fuel 0 hx
        refine ⟨[.getStatus, .initExecution, .pushCommand i] ++ pre, ?_⟩
        simp [runPoints, hsg, hx, hpre, List.append_assoc]
      · simp [runPoints, hsg, hx] at h
      · simp [runPoints, hsg, hx] at h
    · simp [runPoints, hsg] at h

/-! ### Claims about the execution paths -/

/-- C2's counterexample: a goal naming the four physical segment joints,
executed on the position/navigation path.  The names handed to the command
groups' `update` are the four segment names as received — not the single
consolidated `wrist_extension` joint — because `execute_cb` never runs the
arm-joint merge on this path. -/
theorem c2_no_merge_counterexample :
    updateNamesOf (execute_cb_position_nav envPN0 segGoal 5).1 =
      some ["joint_arm_l0", "joint_arm_l1", "joint_arm_l2", "joint_arm_l3"] ∧
    some ["joint_arm_l0", "joint_arm_l1", "joint_arm_l2", "joint_arm_l3"] ≠
      some ["wrist_extension"] := by
  decide

/-- C2 (amended): on the position/navigation goal-execution path no arm-joint
merge is performed — the command groups' `update` receives the incoming
trajectory's joint names unchanged; the consolidation into `wrist_extension`
happens only on the manipulation path, where `merge_arm_joints` runs after
the point-length validation and before the joint-name check. -/
theorem c2_update_gets_raw_names (env : PNEnv) (goal : Goal) (fuel : Nat) :
    updateNamesOf (execute_cb_position_nav env goal fuel).1 =
      some goal.trajectory.joint_names := by
  simp [execute_cb_position_nav, updateNamesOf]

/-- C3: the base velocity-command callback
(`set_mobile_base_velocity_callback`) acquires the mode read lock but, when
the robot is not in navigation mode, returns without releasing it — one
acquisition, zero releases — while the periodic state-publication task and
the callback's navigation-mode path are balanced.  A leaked read hold blocks
every later `acquire_write` of a mode transition forever. -/
theorem c3_cmd_vel_lock_leak :
    readAcquires (set_mobile_base_velocity_callback (some "position")) = 1 ∧
    readReleases (set_mobile_base_velocity_callback (some "position")) = 0 ∧
    readAcquires (command_mobile_base_velocity_and_publish_state (some "position")) =
      readReleases (command_mobile_base_velocity_and_publish_state (some "position")) ∧
    readAcquires (set_mobile_base_velocity_callback (some "navigation")) =
      readReleases (set_mobile_base_velocity_callback (some "navigation")) := by
  decide

/-- C5: on the position/navigation path, when iteration `s` of point `p`'s
poll loop is the first to observe the preemption signal (explicit cancel or
the global stop flag) — all earlier iterations being live, the goals still
unreached and the deadline not passed — execution terminates with the
preempted result: the trace ends with the preemption block
(`set_preempted`, stop-flag reset, lock release) and no event of that block
commands hardware, so the in-flight motion is left to settle. -/
theorem c5_preempt_settles (env : PNEnv) (goal : Goal) (fuel p s : Nat)
    (hupd : env.updateOk = true)
    (hnum : env.numValid = goal.trajectory.joint_names.length)
    (hpos : 0 < goal.trajectory.joint_names.length)
    (hp : p < goal.trajectory.points.length)
    (hprev : ∀ q, q < p →
      env.setGoalOk q = true ∧ (pollLoop env q 0 fuel).2 = .reached)
    (hsg : env.setGoalOk p = true)
    (hlive : ∀ j, j < s → live env p j)
    (hnr : env.reached p s = false)
    (hel : env.elapsed p s ≤ default_goal_timeout_s)
    (hpre : env.preempt p s = true)
    (hfuel : s < fuel) :
    (execute_cb_position_nav env goal fuel).2 = .preempted ∧
    ∃ pre, (execute_cb_position_nav env goal fuel).1 = pre ++ preemptBlock ∧
      ∀ e ∈ preemptBlock, isHwCommand e = false := by
  have hpoll : (pollLoop env p 0 fuel).2 = .preempted :=
    pollLoop_preempt_fires env p s 0 fuel
      (by intro j hj; simpa using hlive j hj)
      (by simpa using hnr) (by simpa using hel) (by simpa using hpre) hfuel
  have h2 : ¬ goal.trajectory.joint_names.length = 0 := by omega
  have hbody : execute_cb_position_nav env goal fuel =
      ([.stopLockAcquire, .setStopFlag false, .stopLockRelease, .acquireRead,
        .updateGroups goal.trajectory.joint_names] ++
          (runPoints env fuel goal.trajectory.points 0).1,
       (runPoints env fuel goal.trajectory.points 0).2) := by
    simp [execute_cb_position_nav, hupd, hnum, h2]
  obtain ⟨hex, pre, hpre2, _⟩ :=
    runPoints_stops env fuel goal.trajectory.points 0 p (by omega)
      (by simpa using hp) (fun q _ hq2 => hprev q hq2) hsg
      (by rw [hpoll]; simp)
  obtain ⟨pre2, hpre3⟩ := pollLoop_preempt_suffix env p fuel 0 hpoll
  refine ⟨?_, ?_⟩
  · rw [hbody]
    exact hex.trans hpoll
  · refine ⟨[Ev.stopLockAcquire, Ev.setStopFlag false, Ev.stopLockRelease,
      Ev.acquireRead, Ev.updateGroups goal.trajectory.joint_names] ++
        (pre ++ pre2), ?_, by decide⟩
    rw [hbody]
    simp [hpre2, hpre3, List.append_assoc]

/-- C5 witness: the preemption theorem at a concrete environment whose
signal first appears at iteration 1 of point 0. -/
theorem c5_preempt_settles_witness :
    (execute_cb_position_nav envPre pnGoal 5).2 = .preempted ∧
    ∃ pre, (execute_cb_position_nav envPre pnGoal 5).1 = pre ++ preemptBlock ∧
      ∀ e ∈ preemptBlock, isHwCommand e = false :=
  c5_preempt_settles envPre pnGoal 5 0 1 rfl (by decide) (by decide) (by decide)
    (fun q hq => absurd hq (Nat.not_lt_zero q)) rfl
    (by
      intro j hj
      have hj0 : j = 0 := by omega
      subst hj0
      exact ⟨rfl, by decide, rfl, rfl⟩)
    rfl (by decide) rfl (by decide)

/-- C6: on the position/navigation path, when iteration `s` of point `p`'s
poll loop is the first at which the elapsed time since that point's own
start exceeds the fixed 10-second deadline while the goals are still
unreached — all earlier iterations being live — execution aborts with the
GOAL_TOLERANCE_VIOLATED result code (the spec's GoalTimeout) and no
command is pushed for any later point. -/
theorem c6_goal_timeout (env : PNEnv) (goal : Goal) (fuel p s : Nat)
    (hupd : env.updateOk = true)
    (hnum : env.numValid = goal.trajectory.joint_names.length)
    (hpos : 0 < goal.trajectory.joint_names.length)
    (hp : p < goal.trajectory.points.length)
    (hprev : ∀ q, q < p →
      env.setGoalOk q = true ∧ (pollLoop env q 0 fuel).2 = .reached)
    (hsg : env.setGoalOk p = true)
    (hlive : ∀ j, j < s → live env p j)
    (hnr : env.reached p s = false)
    (hto : default_goal_timeout_s < env.elapsed p s)
    (hfuel : s < fuel) :
    default_goal_timeout_s = 10 ∧
    (execute_cb_position_nav env goal fuel).2 = .timeout ∧
    Ev.setResultCode GOAL_TOLERANCE_VIOLATED ∈ (execute_cb_position_nav env goal fuel).1 ∧
    Ev.abortGoal ∈ (execute_cb_position_nav env goal fuel).1 ∧
    ∀ r, p < r → Ev.pushCommand r ∉ (execute_cb_position_nav env goal fuel).1 := by
  obtain ⟨hpoll, hm1, hm2⟩ :=
    pollLoop_timeout_fires env p s 0 fuel
      (by intro j hj; simpa using hlive j hj)
      (by simpa using hnr) (by simpa using hto) hfuel
  have h2 : ¬ goal.trajectory.joint_names.length = 0 := by omega
  have hbody : execute_cb_position_nav env goal fuel =
      ([.stopLockAcquire, .setStopFlag false, .stopLockRelease, .acquireRead,
        .updateGroups goal.trajectory.joint_names] ++
          (runPoints env fuel goal.trajectory.points 0).1,
       (runPoints env fuel goal.trajectory.points 0).2) := by
    simp [execute_cb_position_nav, hupd, hnum, h2]
  obtain ⟨hex, pre, hpre2, hpush⟩ :=
    runPoints_stops env fuel goal.trajectory.points 0 p (by omega)
      (by simpa using hp) (fun q _ hq2 => hprev q hq2) hsg
      (by rw [hpoll]; simp)
  refine ⟨rfl, ?_, ?_, ?_, ?_⟩
  · rw [hbody]
    exact hex.trans hpoll
  · rw [hbody]
    simp [hpre2, hm1]
  · rw [hbody]
    simp [hpre2, hm2]
  · intro r hr
    rw [hbody]
    simp only [hpre2, List.append_assoc, List.mem_append]
    rintro (h | h | h)
    · simp at h
    · exact hpush r hr h
    · exact pollLoop_no_push env p r fuel 0 h

/-- C6 witness: the timeout theorem at a concrete environment whose clock
first exceeds the deadline at iteration 1 of point 0. -/
theorem c6_goal_timeout_witness :
    default_goal_timeout_s = 10 ∧
    (execute_cb_position_nav envTmo pnGoal 5).2 = .timeout ∧
    Ev.setResultCode GOAL_TOLERANCE_VIOLATED ∈ (execute_cb_position_nav envTmo pnGoal 5).1 ∧
    Ev.abortGoal ∈ (execute_cb_position_nav envTmo pnGoal 5).1 ∧
    ∀ r, 0 < r → Ev.pushCommand r ∉ (execute_cb_position_nav envTmo pnGoal 5).1 :=
  c6_goal_timeout envTmo pnGoal 5 0 1 rfl (by decide) (by decide) (by decide)
    (fun q hq => absurd hq (Nat.not_lt_zero q)) rfl
    (by
      intro j hj
      have hj0 : j = 0 := by omega
      subst hj0
      exact ⟨rfl, by decide, rfl, rfl⟩)
    rfl (by decide) (by decide)

/-- C10: accepting a goal on either path writes `stop_the_robot := False`
under the stop lock before anything else — in particular before the mode
lock is taken, the groups are updated, or any hardware command is issued —
and whenever the position/navigation path exits preempted, its trace
contains `set_preempted` immediately followed by another reset of the flag
to False: a raised stop flag interrupts at most the goal in progress. -/
theorem c10_stop_flag_reset :
    (∀ (env : PNEnv) (goal : Goal) (fuel : Nat),
      ∃ rest, (execute_cb_position_nav env goal fuel).1 =
        .stopLockAcquire :: .setStopFlag false :: rest) ∧
    (∀ (cfg : ManipCfg) (env : ManipEnv) (goal : Goal),
      ∃ rest, (execute_trajectory cfg env goal).events =
        .stopLockAcquire :: .setStopFlag false :: rest) ∧
    (∀ (env : PNEnv) (goal : Goal) (fuel : Nat),
      (execute_cb_position_nav env goal fuel).2 = .preempted →
      List.IsInfix [Ev.setPreempted, Ev.setStopFlag false]
        (execute_cb_position_nav env goal fuel).1) := by
  refine ⟨?_, ?_, ?_⟩
  · intro env goal fuel
    exact ⟨_, rfl⟩
  · intro cfg env goal
    unfold execute_trajectory
    dsimp only
    repeat' split
    all_goals exact ⟨_, rfl⟩
  · intro env goal fuel h
    by_cases h1 : env.updateOk = false
    · simp [execute_cb_position_nav, h1] at h
    · have hupd : env.updateOk = true := by
        revert h1
        cases env.updateOk <;> simp
      by_cases h2 : env.numValid = 0
      · simp [execute_cb_position_nav, h1, h2] at h
      · by_cases hnum : env.numValid = goal.trajectory.joint_names.length
        · have h2a : ¬ goal.trajectory.joint_names.length = 0 := by omega
          have h4 : (runPoints env fuel goal.trajectory.points 0).2 = .preempted := by
            simpa [execute_cb_position_nav, hupd, hnum, h2a] using h
          obtain ⟨pre, hpre⟩ := runPoints_preempt_suffix env fuel _ 0 h4
          have hev : (execute_cb_position_nav env goal fuel).1 =
              [.stopLockAcquire, .setStopFlag false, .stopLockRelease, .acquireRead,
               .updateGroups goal.trajectory.joint_names] ++
                (pre ++ preemptBlock) := by
            simp [execute_cb_position_nav, hupd, hnum, h2a, hpre]
          rw [hev]
          refine ⟨[.stopLockAcquire, .setStopFlag false, .stopLockRelease, .acquireRead,
            .updateGroups goal.trajectory.joint_names] ++ pre ++ [Ev.stopLockAcquire],
            [Ev.releaseRead, Ev.stopLockRelease], ?_⟩
          simp [preemptBlock]
        · simp [execute_cb_position_nav, h1, h2, hnum] at h

/-- C10 witness: both trace prefixes and the preemption-branch reset, at
concrete inputs (the preempted exit of `envPre` is discharged by
evaluation). -/
theorem c10_stop_flag_reset_witness :
    (∃ rest, (execute_cb_position_nav envPre pnGoal 5).1 =
      .stopLockAcquire :: .setStopFlag false :: rest) ∧
    (∃ rest, (execute_trajectory cfgW envW goalW).events =
      .stopLockAcquire :: .setStopFlag false :: rest) ∧
    List.IsInfix [Ev.setPreempted, Ev.setStopFlag false]
      (execute_cb_position_nav envPre pnGoal 5).1 :=
  ⟨c10_stop_flag_reset.1 envPre pnGoal 5,
   c10_stop_flag_reset.2.1 cfgW envW goalW,
   c10_stop_flag_reset.2.2 envPre pnGoal 5 (by decide)⟩

/-- C4: on the manipulation path, a goal whose point carries a position
count different from the joint-name count is NOT rejected with InvalidGoal:
while building the `InvalidGoalException` message the source reads
`goal.joint_names`, an attribute the Goal message does not have, so an
`AttributeError` reaches the generic exception handler, which calls
`stop_trajectory()` — a hardware call — and aborts with the ad-hoc code
`-100` instead of INVALID_GOAL (playback is still never started). -/
theorem c4_length_mismatch_attribute_error :
    badLenGoal.trajectory.points.any
      (fun pt => pt.positions.length ≠ badLenGoal.trajectory.joint_names.length) = true ∧
    (execute_trajectory cfgW envW badLenGoal).code = -100 ∧
    (execute_trajectory cfgW envW badLenGoal).code ≠ INVALID_GOAL ∧
    Ev.stopTrajectory ∈ (execute_trajectory cfgW envW badLenGoal).events ∧
    Ev.startTrajectory ∉ (execute_trajectory cfgW envW badLenGoal).events := by
  decide

/-- `applyIgnores` does not change the joint names. -/
theorem applyIgnores_names (cfg : ManipCfg) (tr : JointTrajectory) :
    (applyIgnores cfg tr).joint_names = tr.joint_names := by
  unfold applyIgnores
  split <;> rfl

/-- `applyIgnores` does not change the number of points. -/
theorem applyIgnores_points_len (cfg : ManipCfg) (tr : JointTrajectory) :
    (applyIgnores cfg tr).points.length = tr.points.length := by
  unfold applyIgnores
  split <;> simp

/-- C1: on the manipulation path the claimed behaviour — per-poll feedback
with desired/actual/error per joint and Succeeded on completion — does not
occur: for a fully validated goal with one joint and one point, with
playback still executing at the first poll, the poll body's call to
`t_comp.get_desired_position_at` (a method no trajectory component defines;
they define `get_desired_position`) raises `AttributeError` into the
generic handler, so playback is started once, then stopped, the goal is
aborted with the ad-hoc code `-100`, and no feedback is ever published. -/
theorem c1_poll_attribute_error :
    (execute_trajectory cfgW envW goalW).code = -100 ∧
    (execute_trajectory cfgW envW goalW).code ≠ SUCCESSFUL ∧
    (execute_trajectory cfgW envW goalW).feedbacks = [] ∧
    Ev.startTrajectory ∈ (execute_trajectory cfgW envW goalW).events ∧
    Ev.stopTrajectory ∈ (execute_trajectory cfgW envW goalW).events ∧
    Ev.abortGoal ∈ (execute_trajectory cfgW envW goalW).events ∧
    Ev.succeedGoal ∉ (execute_trajectory cfgW envW goalW).events ∧
    Ev.publishFeedback ∉ (execute_trajectory cfgW envW goalW).events := by
  decide
